import Mathlib

/-!
Shallow embedding of the curtain-control coordinator
(`coordinator.py`, `device_discovery.py`): packet codec (CRC, command
encoding, frame scanning), device state registry, listen-loop and
send-path control flow, and the discovery service's device snapshots.
Byte strings are modelled as `List Nat` with each element a byte value;
Python ints that may be compared against 0 from below are modelled as `Int`.
-/

set_option maxRecDepth 100000

/-- One shift round of `calculate_crc`:
`if crc & 0x0001: crc = (crc >> 1) ^ 0xA001 else: crc >>= 1`. -/
def crcRound (crc : Nat) : Nat :=
  if crc % 2 = 1 then (crc / 2) ^^^ 0xA001 else crc / 2

/-- One byte of `calculate_crc`: `crc ^= byte` followed by 8 shift rounds. -/
def crcByte (crc b : Nat) : Nat :=
  crcRound^[8] (crc ^^^ b)

/-- `calculate_crc` (coordinator.py lines 18-28): CRC-16, seed 0xFFFF,
polynomial 0xA001, LSB-first, folded over the byte string. -/
def calculate_crc (command : List Nat) : Nat :=
  command.foldl crcByte 0xFFFF

/-- `correct_position` (coordinator.py lines 36-49): clamp near-limit raw
positions: [97,100] to 100, [0,3] to 0, otherwise unchanged. -/
def correct_position (position : Int) : Int :=
  if 97 ≤ position ∧ position ≤ 100 then 100
  else if 0 ≤ position ∧ position ≤ 3 then 0
  else position

/-- `generate_command` (coordinator.py lines 52-56):
`struct.pack` of marker 0x55, 16-bit big-endian device address, function
code, data address and data byte, followed by the CRC of those six bytes
packed little-endian (`struct.pack` with the less-than H format). -/
def generate_command (device_address function_code data_address data : Nat) : List Nat :=
  let command : List Nat :=
    [0x55, device_address / 256, device_address % 256, function_code, data_address, data]
  let crc := calculate_crc command
  command ++ [crc % 256, crc / 256]

/-- Indexing into a byte string, `data[i]` (always in-bounds in the source
because every access is behind the length-8 check). -/
def byteAt (data : List Nat) (i : Nat) : Nat :=
  data.getD i 0

/-- `struct.unpack` of bytes 1-2 big-endian in `_parse_status_packet`. -/
def parsed_device_address (data : List Nat) : Nat :=
  byteAt data 1 * 256 + byteAt data 2

/-- `data[3]` in `_parse_status_packet`. -/
def parsed_function_code (data : List Nat) : Nat :=
  byteAt data 3

/-- `data[4]` in `_parse_status_packet`. -/
def parsed_data_address (data : List Nat) : Nat :=
  byteAt data 4

/-- `data[5]` in `_parse_status_packet`. -/
def parsed_position (data : List Nat) : Nat :=
  byteAt data 5

/-- `struct.unpack` of bytes 6-8 little-endian in `_parse_status_packet`. -/
def crc_received (data : List Nat) : Nat :=
  byteAt data 6 + byteAt data 7 * 256

/-- The CRC comparison of `_parse_status_packet` (lines 226-232): the
received trailing CRC equals the CRC recomputed over bytes 0-5. -/
def crc_ok (data : List Nat) : Bool :=
  decide (crc_received data = calculate_crc (data.take 6))

@[simp] theorem generate_command_length (a f da x : Nat) :
    (generate_command a f da x).length = 8 := by
  simp [generate_command]

@[simp] theorem parsed_device_address_generate (a f da x : Nat) :
    parsed_device_address (generate_command a f da x) = a := by
  simp [generate_command, parsed_device_address, byteAt]
  omega

@[simp] theorem parsed_function_code_generate (a f da x : Nat) :
    parsed_function_code (generate_command a f da x) = f := by
  simp [generate_command, parsed_function_code, byteAt]

@[simp] theorem parsed_data_address_generate (a f da x : Nat) :
    parsed_data_address (generate_command a f da x) = da := by
  simp [generate_command, parsed_data_address, byteAt]

@[simp] theorem parsed_position_generate (a f da x : Nat) :
    parsed_position (generate_command a f da x) = x := by
  simp [generate_command, parsed_position, byteAt]

@[simp] theorem byteAt_generate_zero (a f da x : Nat) :
    byteAt (generate_command a f da x) 0 = 0x55 := by
  simp [generate_command, byteAt]

@[simp] theorem take_six_generate (a f da x : Nat) :
    (generate_command a f da x).take 6 =
      [0x55, a / 256, a % 256, f, da, x] := by
  simp [generate_command]

@[simp] theorem crc_received_generate (a f da x : Nat) :
    crc_received (generate_command a f da x) =
      calculate_crc [0x55, a / 256, a % 256, f, da, x] := by
  simp [generate_command, crc_received, byteAt]
  omega

theorem crc_ok_generate (a f da x : Nat) :
    crc_ok (generate_command a f da x) = true := by
  simp [crc_ok]

/-- C3: for every device address up to 0xFFFF and every function code, data
address and data byte up to 0xFF, encoding produces exactly 8 bytes, the
encoded frame passes the decoder's CRC comparison (CRC over bytes 0-5
against bytes 6-8 little-endian), and the decoder's field extraction
recovers the same address, function code, data address and data. -/
theorem C3_encode_decode_roundtrip (a f da x : Nat)
    (ha : a ≤ 0xFFFF) (hf : f ≤ 0xFF) (hda : da ≤ 0xFF) (hx : x ≤ 0xFF) :
    (generate_command a f da x).length = 8 ∧
    crc_ok (generate_command a f da x) = true ∧
    parsed_device_address (generate_command a f da x) = a ∧
    parsed_function_code (generate_command a f da x) = f ∧
    parsed_data_address (generate_command a f da x) = da ∧
    parsed_position (generate_command a f da x) = x := by
  refine ⟨?_, ?_, ?_, ?_, ?_, ?_⟩ <;> simp [crc_ok]

theorem C3_encode_decode_roundtrip_witness :
    0x06FE ≤ 0xFFFF ∧
    ((generate_command 0x06FE 0x03 0x04 0x64).length = 8 ∧
     crc_ok (generate_command 0x06FE 0x03 0x04 0x64) = true ∧
     parsed_device_address (generate_command 0x06FE 0x03 0x04 0x64) = 0x06FE ∧
     parsed_function_code (generate_command 0x06FE 0x03 0x04 0x64) = 0x03 ∧
     parsed_data_address (generate_command 0x06FE 0x03 0x04 0x64) = 0x04 ∧
     parsed_position (generate_command 0x06FE 0x03 0x04 0x64) = 0x64) :=
  ⟨by decide,
   C3_encode_decode_roundtrip 0x06FE 0x03 0x04 0x64
     (by decide) (by decide) (by decide) (by decide)⟩

/-- C7: for every raw position in [0,100], `correct_position` maps [97,100]
to 100, [0,3] to 0, leaves (3,97) unchanged, and is idempotent. -/
theorem C7_normalize_position (p : Int) (h0 : 0 ≤ p) (h100 : p ≤ 100) :
    (97 ≤ p → correct_position p = 100) ∧
    (p ≤ 3 → correct_position p = 0) ∧
    (3 < p → p < 97 → correct_position p = p) ∧
    correct_position (correct_position p) = correct_position p := by
  unfold correct_position
  split_ifs <;> omega

theorem C7_normalize_position_witness :
    (0 ≤ (98 : Int)) ∧ ((98 : Int) ≤ 100) ∧
    ((97 ≤ (98 : Int) → correct_position 98 = 100) ∧
     ((98 : Int) ≤ 3 → correct_position 98 = 0) ∧
     (3 < (98 : Int) → (98 : Int) < 97 → correct_position 98 = 98) ∧
     correct_position (correct_position 98) = correct_position 98) :=
  ⟨by decide, by decide, C7_normalize_position 98 (by decide) (by decide)⟩

/-- C9: encoding address 0x06FE, function 0x03, data address 0x04, data
0x64 yields exactly the header bytes 55 06 FE 03 04 64 followed by the CRC
of those six bytes in little-endian order, and that exact 8-byte sequence
passes the decoder's CRC comparison with raw position 0x64. -/
theorem C9_encode_scenario :
    generate_command 0x06FE 0x03 0x04 0x64 =
      [0x55, 0x06, 0xFE, 0x03, 0x04, 0x64,
       calculate_crc [0x55, 0x06, 0xFE, 0x03, 0x04, 0x64] % 256,
       calculate_crc [0x55, 0x06, 0xFE, 0x03, 0x04, 0x64] / 256] ∧
    crc_ok (generate_command 0x06FE 0x03 0x04 0x64) = true ∧
    parsed_position (generate_command 0x06FE 0x03 0x04 0x64) = 0x64 := by
  decide

/-- Kinds of Python exception a discovery callback may raise. The first
three are the tuple named in the `except` clause of the callback loop in
`_parse_status_packet` (coordinator.py line 243); `other` stands for any
exception class outside that tuple. -/
inductive PyExc
  | typeError
  | valueError
  | attributeError
  | other
deriving DecidableEq

/-- Whether the `except (TypeError, ValueError, AttributeError)` clause of
the discovery-callback loop catches an exception of the given kind. -/
def discoveryCaught : PyExc → Bool
  | .typeError => true
  | .valueError => true
  | .attributeError => true
  | .other => false

/-- A discovery callback, modelled by its observable effect on the
coordinator: given the address it either returns (`none`) or raises an
exception of some kind (`some e`). -/
def Callback : Type := Nat → Option PyExc

/-- The callback loop of `_parse_status_packet` (lines 240-244): run each
callback in order; a raise that the `except` clause catches is logged and
the loop continues; any other raise propagates. Returns the number of
callbacks that were invoked and the escaped exception, if any. -/
def runCallbacks : List Callback → Nat → Nat × Option PyExc
  | [], _ => (0, none)
  | cb :: rest, addr =>
    match cb addr with
    | none =>
      let r := runCallbacks rest addr
      (r.1 + 1, r.2)
    | some e =>
      if discoveryCaught e then
        let r := runCallbacks rest addr
        (r.1 + 1, r.2)
      else (1, some e)

/-- The mutable registry owned by the coordinator: `_discovered_devices`
(a Python list, appended on first sighting) and `_device_positions`
(a Python dict from device address to corrected position). -/
structure RegistryState where
  discovered : List Nat
  positions : List (Nat × Int)
deriving DecidableEq

/-- The coordinator's registry right after `__init__`. -/
def emptyState : RegistryState := ⟨[], []⟩

/-- Python dict assignment `d[k] = v`. -/
def dictInsert (m : List (Nat × Int)) (k : Nat) (v : Int) : List (Nat × Int) :=
  (k, v) :: m.filter (fun p => p.1 != k)

/-- Python dict lookup `d.get(k)`. -/
def dictGet (m : List (Nat × Int)) (k : Nat) : Option Int :=
  (m.find? (fun p => p.1 == k)).map (·.2)

@[simp] theorem dictGet_insert_self (m : List (Nat × Int)) (k : Nat) (v : Int) :
    dictGet (dictInsert m k v) k = some v := by
  simp [dictGet, dictInsert, List.find?]

/-- Result of one `_parse_status_packet` call: the registry afterwards, the
address whose first sighting was recorded by this call (if any), how many
discovery callbacks were invoked, and the exception that escaped the call
(if any). -/
structure ParseResult where
  state : RegistryState
  newlyDiscovered : Option Nat
  invoked : Nat
  escaped : Option PyExc
deriving DecidableEq

/-- The position-update tail of `_parse_status_packet` (lines 246-269):
when the frame is a status response (function code 0x01, data address
0x01), store the corrected position for the device, overwriting any
previous value. -/
def positionUpdate (st : RegistryState) (nd : Option Nat) (inv : Nat)
    (data : List Nat) : ParseResult :=
  if parsed_function_code data = 0x01 ∧ parsed_data_address data = 0x01 then
    ⟨⟨st.discovered,
      dictInsert st.positions (parsed_device_address data)
        (correct_position (parsed_position data))⟩, nd, inv, none⟩
  else ⟨st, nd, inv, none⟩

/-- `_parse_status_packet` (coordinator.py lines 210-269): reject short
frames, frames without the 0x55 marker, and frames whose CRC comparison
fails; then on the first sighting of the parsed address append it to
`_discovered_devices` and run the discovery callbacks (an uncaught raise
propagates, skipping the position update); finally store the corrected
position when the frame is a status response. -/
def parse_status_packet (cbs : List Callback) (st : RegistryState)
    (data : List Nat) : ParseResult :=
  if data.length < 8 then ⟨st, none, 0, none⟩
  else if byteAt data 0 ≠ 0x55 then ⟨st, none, 0, none⟩
  else if crc_received data ≠ calculate_crc (data.take 6) then ⟨st, none, 0, none⟩
  else
    let addr := parsed_device_address data
    if addr ∈ st.discovered then
      positionUpdate st none 0 data
    else
      let st1 : RegistryState := ⟨st.discovered ++ [addr], st.positions⟩
      let r := runCallbacks cbs addr
      match r.2 with
      | some e => ⟨st1, some addr, r.1, some e⟩
      | none => positionUpdate st1 (some addr) r.1 data

theorem runCallbacks_benign (cbs : List Callback) (n : Nat)
    (hb : ∀ cb ∈ cbs, ∀ m e, cb m = some e → discoveryCaught e = true) :
    runCallbacks cbs n = (cbs.length, none) := by
  induction cbs with
  | nil => rfl
  | cons cb rest ih =>
    have hcb := hb cb (List.mem_cons_self cb rest)
    have hrest : ∀ c ∈ rest, ∀ m e, c m = some e → discoveryCaught e = true :=
      fun c hc => hb c (List.mem_cons_of_mem cb hc)
    simp only [runCallbacks]
    cases h : cb n with
    | none => simp [ih hrest]
    | some e => simp [hcb n e h, ih hrest]

/-- C4: counterexample.  A first callback raising an exception outside the
tuple (TypeError, ValueError, AttributeError) is not caught: it escapes the
parse, the second callback is never invoked, and the position update does
not complete — refuting the claim that any exception is isolated.  Input:
the valid status frame for address 0x06FE with raw position 0x61 and the
two callbacks (raise non-tuple exception; succeed). -/
theorem C4_counterexample :
    (parse_status_packet [fun _ => some PyExc.other, fun _ => none]
        emptyState (generate_command 0x06FE 0x01 0x01 0x61)).invoked = 1 ∧
    (parse_status_packet [fun _ => some PyExc.other, fun _ => none]
        emptyState (generate_command 0x06FE 0x01 0x01 0x61)).escaped = some PyExc.other ∧
    dictGet (parse_status_packet [fun _ => some PyExc.other, fun _ => none]
        emptyState (generate_command 0x06FE 0x01 0x01 0x61)).state.positions 0x06FE = none ∧
    ¬ ((parse_status_packet [fun _ => some PyExc.other, fun _ => none]
          emptyState (generate_command 0x06FE 0x01 0x01 0x61)).invoked = 2 ∧
       (parse_status_packet [fun _ => some PyExc.other, fun _ => none]
          emptyState (generate_command 0x06FE 0x01 0x01 0x61)).escaped = none ∧
       dictGet (parse_status_packet [fun _ => some PyExc.other, fun _ => none]
          emptyState (generate_command 0x06FE 0x01 0x01 0x61)).state.positions 0x06FE
         = some 100) := by
  decide

/-- C4 (amended): on the first sighting of a new address, if every
exception raised by a registered discovery callback is of a kind named in
the `except (TypeError, ValueError, AttributeError)` clause, then every
callback is invoked, the exception is caught (nothing escapes), the address
is recorded, and the status-frame position update still completes.
Exceptions of other kinds propagate (see the counterexample). -/
theorem C4_callback_isolation (cbs : List Callback) (st : RegistryState) (a x : Nat)
    (hna : a ∉ st.discovered)
    (hb : ∀ cb ∈ cbs, ∀ m e, cb m = some e → discoveryCaught e = true) :
    (parse_status_packet cbs st (generate_command a 0x01 0x01 x)).invoked = cbs.length ∧
    (parse_status_packet cbs st (generate_command a 0x01 0x01 x)).escaped = none ∧
    a ∈ (parse_status_packet cbs st (generate_command a 0x01 0x01 x)).state.discovered ∧
    dictGet (parse_status_packet cbs st (generate_command a 0x01 0x01 x)).state.positions a
      = some (correct_position (x : Int)) := by
  have hrun := runCallbacks_benign cbs a hb
  unfold parse_status_packet positionUpdate
  simp [hrun, hna]

theorem C4_callback_isolation_witness :
    (0x06FE ∉ emptyState.discovered) ∧
    ((parse_status_packet [] emptyState (generate_command 0x06FE 0x01 0x01 0x61)).invoked
        = ([] : List Callback).length ∧
     (parse_status_packet [] emptyState (generate_command 0x06FE 0x01 0x01 0x61)).escaped = none ∧
     0x06FE ∈ (parse_status_packet [] emptyState
        (generate_command 0x06FE 0x01 0x01 0x61)).state.discovered ∧
     dictGet (parse_status_packet [] emptyState
        (generate_command 0x06FE 0x01 0x01 0x61)).state.positions 0x06FE
       = some (correct_position ((0x61 : Nat) : Int))) :=
  ⟨by decide,
   C4_callback_isolation [] emptyState 0x06FE 0x61 (by decide) (by simp)⟩

@[simp] theorem byteAt_cons_zero (b : Nat) (l : List Nat) : byteAt (b :: l) 0 = b := rfl

@[simp] theorem byteAt_cons_succ (b : Nat) (l : List Nat) (i : Nat) :
    byteAt (b :: l) (i + 1) = byteAt l i := rfl

/-- Python `data.find(0x55, offset)`: the index of the first 0x55 byte at or
after `offset`, if any (`_parse_multiple_packets` line 194). -/
def findFrom : List Nat → Nat → Option Nat
  | [], _ => none
  | b :: rest, 0 => if b = 0x55 then some 0 else (findFrom rest 0).map (· + 1)
  | _ :: rest, o + 1 => (findFrom rest o).map (· + 1)

theorem findFrom_ge : ∀ {l : List Nat} {o i : Nat}, findFrom l o = some i → o ≤ i := by
  intro l
  induction l with
  | nil => intro o i h; simp [findFrom] at h
  | cons b rest ih =>
    intro o i h
    cases o with
    | zero => exact Nat.zero_le i
    | succ o' =>
      simp only [findFrom, Option.map_eq_some'] at h
      obtain ⟨i', hi', rfl⟩ := h
      exact Nat.succ_le_succ (ih hi')

theorem findFrom_marker : ∀ {l : List Nat} {o i : Nat},
    findFrom l o = some i → byteAt l i = 0x55 := by
  intro l
  induction l with
  | nil => intro o i h; simp [findFrom] at h
  | cons b rest ih =>
    intro o i h
    cases o with
    | zero =>
      simp only [findFrom] at h
      split at h
      · cases h; simpa
      · simp only [Option.map_eq_some'] at h
        obtain ⟨i', hi', rfl⟩ := h
        simpa using ih hi'
    | succ o' =>
      simp only [findFrom, Option.map_eq_some'] at h
      obtain ⟨i', hi', rfl⟩ := h
      simpa using ih hi'

theorem findFrom_lt : ∀ {l : List Nat} {o i : Nat},
    findFrom l o = some i → i < l.length := by
  intro l
  induction l with
  | nil => intro o i h; simp [findFrom] at h
  | cons b rest ih =>
    intro o i h
    cases o with
    | zero =>
      simp only [findFrom] at h
      split at h
      · cases h; simp
      · simp only [Option.map_eq_some'] at h
        obtain ⟨i', hi', rfl⟩ := h
        simpa using ih hi'
    | succ o' =>
      simp only [findFrom, Option.map_eq_some'] at h
      obtain ⟨i', hi', rfl⟩ := h
      simpa using ih hi'

theorem findFrom_min : ∀ {l : List Nat} {o i : Nat}, findFrom l o = some i →
    ∀ j, o ≤ j → j < i → byteAt l j ≠ 0x55 := by
  intro l
  induction l with
  | nil => intro o i h; simp [findFrom] at h
  | cons b rest ih =>
    intro o i h j hoj hji
    cases o with
    | zero =>
      simp only [findFrom] at h
      split at h
      · cases h; omega
      · simp only [Option.map_eq_some'] at h
        obtain ⟨i', hi', rfl⟩ := h
        cases j with
        | zero => simpa using by assumption
        | succ j' => simpa using ih hi' j' (Nat.zero_le j') (by omega)
    | succ o' =>
      simp only [findFrom, Option.map_eq_some'] at h
      obtain ⟨i', hi', rfl⟩ := h
      cases j with
      | zero => omega
      | succ j' => simpa using ih hi' j' (by omega) (by omega)

theorem findFrom_none : ∀ {l : List Nat} {o : Nat}, findFrom l o = none →
    ∀ j, o ≤ j → j < l.length → byteAt l j ≠ 0x55 := by
  intro l
  induction l with
  | nil => intro o _ j _ hj; simp at hj
  | cons b rest ih =>
    intro o h j hoj hjl
    cases o with
    | zero =>
      simp only [findFrom] at h
      split at h
      · cases h
      · simp only [Option.map_eq_none'] at h
        cases j with
        | zero => simpa using by assumption
        | succ j' => simpa using ih h j' (Nat.zero_le j') (by simpa using hjl)
    | succ o' =>
      simp only [findFrom, Option.map_eq_none'] at h
      cases j with
      | zero => omega
      | succ j' => simpa using ih h j' (by omega) (by simpa using hjl)

/-- The scanning while-loop of `_parse_multiple_packets` (coordinator.py
lines 189-208), with the registry side effects factored out: collect, in
order, the 8-byte slices the loop passes to `_parse_status_packet`.
`fuel` bounds the number of loop iterations; since the loop advances
`offset` by at least 8 per iteration, `data.length` iterations always
suffice (used by `extract_packets`). -/
def extract_aux : Nat → List Nat → Nat → List (List Nat)
  | 0, _, _ => []
  | fuel + 1, data, offset =>
    if offset < data.length then
      match findFrom data offset with
      | none => []
      | some idx =>
        if idx + 8 > data.length then []
        else ((data.drop idx).take 8) :: extract_aux fuel data (idx + 8)
    else []

/-- The slices `_parse_multiple_packets` extracts from a read buffer. -/
def extract_packets (data : List Nat) : List (List Nat) :=
  extract_aux data.length data 0

/-- Feed extracted slices to `_parse_status_packet` in order, threading the
registry, accumulating the addresses newly discovered, and stopping early
if an exception escapes one parse (as the Python loop would). -/
def applyPackets (cbs : List Callback) :
    RegistryState → List (List Nat) → RegistryState × List Nat × Option PyExc
  | st, [] => (st, [], none)
  | st, p :: rest =>
    let r := parse_status_packet cbs st p
    match r.escaped with
    | some e => (r.state, r.newlyDiscovered.toList, some e)
    | none =>
      let res := applyPackets cbs r.state rest
      (res.1, r.newlyDiscovered.toList ++ res.2.1, res.2.2)

/-- `_parse_multiple_packets` (lines 189-208): scan the read buffer for
8-byte slices starting at marker bytes and apply each to the registry.
The listen loop calls this once per `read`, with no carry-over of bytes
between reads. -/
def parse_multiple_packets (cbs : List Callback) (st : RegistryState)
    (data : List Nat) : RegistryState × List Nat × Option PyExc :=
  applyPackets cbs st (extract_packets data)

/-- C2: evaluation at the failing input.  The truncated 5-byte fragment
`55 06 FE 01 01` yields no frame and no error, as the claim says; but
nothing is retained: the scanner reports nothing about consumed bytes and
the listen loop parses each read independently, so when the remaining
3 bytes `61 24 4E` arrive in the next read the frame is never recovered —
whereas the same 8 bytes in a single read discover device 0x06FE. -/
theorem C2_truncated_fragment_lost :
    extract_packets ((generate_command 0x06FE 0x01 0x01 0x61).take 5) = [] ∧
    extract_packets ((generate_command 0x06FE 0x01 0x01 0x61).drop 5) = [] ∧
    0x06FE ∈ (parse_multiple_packets [] emptyState
        (generate_command 0x06FE 0x01 0x01 0x61)).1.discovered ∧
    0x06FE ∉ (parse_multiple_packets []
        (parse_multiple_packets [] emptyState
          ((generate_command 0x06FE 0x01 0x01 0x61).take 5)).1
        ((generate_command 0x06FE 0x01 0x01 0x61).drop 5)).1.discovered := by
  decide

/-- C1: counterexample.  Buffer: a spurious marker byte 0x55 immediately
followed by the complete valid frame for address 0x06FE.  The first 8-byte
slice (spurious marker plus the first 7 bytes of the real frame) fails the
CRC comparison, and the scanner then advances to `start_idx + 8`, past the
start of the real frame, so the valid frame is neither extracted nor
applied: address 0x06FE is never discovered. -/
theorem C1_counterexample :
    byteAt (0x55 :: generate_command 0x06FE 0x03 0x04 0x64) 0 = 0x55 ∧
    crc_ok ((0x55 :: generate_command 0x06FE 0x03 0x04 0x64).take 8) = false ∧
    (0x55 :: generate_command 0x06FE 0x03 0x04 0x64).drop 1 =
      generate_command 0x06FE 0x03 0x04 0x64 ∧
    crc_ok (generate_command 0x06FE 0x03 0x04 0x64) = true ∧
    generate_command 0x06FE 0x03 0x04 0x64 ∉
      extract_packets (0x55 :: generate_command 0x06FE 0x03 0x04 0x64) ∧
    0x06FE ∉ (parse_multiple_packets [] emptyState
        (0x55 :: generate_command 0x06FE 0x03 0x04 0x64)).1.discovered := by
  decide

theorem byteAt_append_left : ∀ (l l2 : List Nat) (p : Nat), p < l.length →
    byteAt (l ++ l2) p = byteAt l p := by
  intro l
  induction l with
  | nil => intro l2 p hp; simp at hp
  | cons b rest ih =>
    intro l2 p hp
    cases p with
    | zero => rfl
    | succ p' => simpa using ih l2 p' (by simpa using hp)

theorem byteAt_append_right : ∀ (l l2 : List Nat) (p : Nat),
    byteAt (l ++ l2) (l.length + p) = byteAt l2 p := by
  intro l
  induction l with
  | nil => intro l2 p; simp
  | cons b rest ih =>
    intro l2 p
    have : rest.length + 1 + p = (rest.length + p) + 1 := by omega
    simp only [List.cons_append, List.length_cons, this, byteAt_cons_succ]
    exact ih l2 p

/-- Core of the amended C1: once every marker inside the prefix starts a
full 8-byte window inside the prefix, the scanner's jumps always stay
inside the prefix until it reaches the frame appended after it. -/
theorem extract_aux_reaches (pre frame : List Nat)
    (hlen : frame.length = 8) (hmark : byteAt frame 0 = 0x55)
    (hpre : ∀ p, p < pre.length → byteAt pre p = 0x55 → p + 8 ≤ pre.length) :
    ∀ fuel offset, offset ≤ pre.length → pre.length + 1 ≤ fuel + offset →
    frame ∈ extract_aux fuel (pre ++ frame) offset := by
  intro fuel
  induction fuel with
  | zero => intro offset h1 h2; omega
  | succ fuel ih =>
    intro offset hoff hfuel
    have hdl : (pre ++ frame).length = pre.length + 8 := by simp [hlen]
    have hofflt : offset < (pre ++ frame).length := by omega
    have hm : byteAt (pre ++ frame) pre.length = 0x55 := by
      have h0 := byteAt_append_right pre frame 0
      rw [Nat.add_zero] at h0
      rw [h0, hmark]
    simp only [extract_aux]
    rw [if_pos hofflt]
    cases hf : findFrom (pre ++ frame) offset with
    | none =>
      exact absurd hm (findFrom_none hf pre.length hoff (by omega))
    | some idx =>
      dsimp only
      have hge := findFrom_ge hf
      have hidxle : idx ≤ pre.length := by
        by_contra hgt
        push_neg at hgt
        exact findFrom_min hf pre.length hoff hgt hm
      rcases Nat.lt_or_ge idx pre.length with hlt | hge2
      · have hmp : byteAt pre idx = 0x55 := by
          rw [← byteAt_append_left pre frame idx hlt]
          exact findFrom_marker hf
        have h8 : idx + 8 ≤ pre.length := hpre idx hlt hmp
        rw [if_neg (by omega)]
        exact List.mem_cons_of_mem _ (ih (idx + 8) (by omega) (by omega))
      · have hidx : idx = pre.length := Nat.le_antisymm hidxle hge2
        subst hidx
        rw [if_neg (by omega)]
        have hslice : ((pre ++ frame).drop pre.length).take 8 = frame := by
          rw [List.drop_left, ← hlen, List.take_length]
        rw [hslice]
        exact List.mem_cons_self _ _

theorem positionUpdate_discovered (st : RegistryState) (nd : Option Nat)
    (inv : Nat) (data : List Nat) :
    (positionUpdate st nd inv data).state.discovered = st.discovered := by
  unfold positionUpdate
  split <;> rfl

theorem positionUpdate_escaped (st : RegistryState) (nd : Option Nat)
    (inv : Nat) (data : List Nat) :
    (positionUpdate st nd inv data).escaped = none := by
  unfold positionUpdate
  split <;> rfl

theorem parse_discovered_mono (cbs : List Callback) (st : RegistryState)
    (p : List Nat) (b : Nat) (hb : b ∈ st.discovered) :
    b ∈ (parse_status_packet cbs st p).state.discovered := by
  unfold parse_status_packet
  split
  · exact hb
  split
  · exact hb
  split
  · exact hb
  dsimp only
  split
  · rw [positionUpdate_discovered]; exact hb
  split
  · simpa using Or.inl hb
  · rw [positionUpdate_discovered]; simpa using Or.inl hb

theorem parse_adds_addr (cbs : List Callback) (st : RegistryState) (p : List Nat)
    (hlen : p.length = 8) (hmark : byteAt p 0 = 0x55)
    (hcrc : crc_received p = calculate_crc (p.take 6)) :
    parsed_device_address p ∈ (parse_status_packet cbs st p).state.discovered := by
  unfold parse_status_packet
  rw [if_neg (by omega), if_neg (by simp [hmark]), if_neg (by simp [hcrc])]
  dsimp only
  split
  · rw [positionUpdate_discovered]; assumption
  split
  · simp
  · rw [positionUpdate_discovered]; simp

theorem parse_escaped_none (cbs : List Callback) (st : RegistryState) (p : List Nat)
    (hbgn : ∀ cb ∈ cbs, ∀ m e, cb m = some e → discoveryCaught e = true) :
    (parse_status_packet cbs st p).escaped = none := by
  unfold parse_status_packet
  split
  · rfl
  split
  · rfl
  split
  · rfl
  dsimp only
  split
  · rw [positionUpdate_escaped]
  rw [runCallbacks_benign cbs _ hbgn]
  exact positionUpdate_escaped _ _ _ _

theorem applyPackets_discovered_mono (cbs : List Callback) :
    ∀ (ps : List (List Nat)) (st : RegistryState) (b : Nat),
    b ∈ st.discovered → b ∈ (applyPackets cbs st ps).1.discovered := by
  intro ps
  induction ps with
  | nil => intro st b hb; exact hb
  | cons p rest ih =>
    intro st b hb
    simp only [applyPackets]
    split
    · exact parse_discovered_mono cbs st p b hb
    · exact ih _ b (parse_discovered_mono cbs st p b hb)

theorem applyPackets_processes (cbs : List Callback) (frame : List Nat)
    (hbgn : ∀ cb ∈ cbs, ∀ m e, cb m = some e → discoveryCaught e = true)
    (hlen : frame.length = 8) (hmark : byteAt frame 0 = 0x55)
    (hcrc : crc_received frame = calculate_crc (frame.take 6)) :
    ∀ (ps : List (List Nat)) (st : RegistryState), frame ∈ ps →
    parsed_device_address frame ∈ (applyPackets cbs st ps).1.discovered := by
  intro ps
  induction ps with
  | nil => intro st h; simp at h
  | cons p rest ih =>
    intro st hmem
    simp only [applyPackets, parse_escaped_none cbs st p hbgn]
    rcases List.mem_cons.mp hmem with rfl | hmem'
    · exact applyPackets_discovered_mono cbs rest _ _
        (parse_adds_addr cbs st frame hlen hmark hcrc)
    · exact ih _ hmem'

/-- C1 (amended): after a CRC mismatch the scanner advances 8 bytes past
the false marker (`offset = start_idx + 8`) and searches for the next
marker from there; a later complete valid frame is therefore recovered and
applied provided no marker in the bytes before it starts an 8-byte window
that overlaps the frame — i.e. every 0x55 in the preceding bytes lies at
least 8 bytes before the frame.  (A valid frame that begins inside the
8-byte window of a failing marker is lost; see the counterexample.) -/
theorem C1_resync_amended (pre frame : List Nat) (cbs : List Callback)
    (st : RegistryState)
    (hlen : frame.length = 8) (hmark : byteAt frame 0 = 0x55)
    (hcrc : crc_received frame = calculate_crc (frame.take 6))
    (hpre : ∀ p, p < pre.length → byteAt pre p = 0x55 → p + 8 ≤ pre.length)
    (hbgn : ∀ cb ∈ cbs, ∀ m e, cb m = some e → discoveryCaught e = true) :
    frame ∈ extract_packets (pre ++ frame) ∧
    parsed_device_address frame ∈
      (parse_multiple_packets cbs st (pre ++ frame)).1.discovered := by
  have hm : frame ∈ extract_packets (pre ++ frame) := by
    apply extract_aux_reaches pre frame hlen hmark hpre (pre ++ frame).length 0
      (Nat.zero_le _)
    simp [hlen]
  exact ⟨hm, applyPackets_processes cbs frame hbgn hlen hmark hcrc _ st hm⟩

theorem C1_resync_amended_witness :
    (∀ p, p < ([0x55, 0, 0, 0, 0, 0, 0, 0] : List Nat).length →
      byteAt [0x55, 0, 0, 0, 0, 0, 0, 0] p = 0x55 →
      p + 8 ≤ ([0x55, 0, 0, 0, 0, 0, 0, 0] : List Nat).length) ∧
    (generate_command 0x06FE 0x03 0x04 0x64 ∈
      extract_packets ([0x55, 0, 0, 0, 0, 0, 0, 0] ++ generate_command 0x06FE 0x03 0x04 0x64) ∧
     parsed_device_address (generate_command 0x06FE 0x03 0x04 0x64) ∈
      (parse_multiple_packets [] emptyState
        ([0x55, 0, 0, 0, 0, 0, 0, 0] ++ generate_command 0x06FE 0x03 0x04 0x64)).1.discovered) :=
  ⟨by decide,
   C1_resync_amended [0x55, 0, 0, 0, 0, 0, 0, 0] (generate_command 0x06FE 0x03 0x04 0x64)
     [] emptyState (by decide) (by decide) (by decide) (by decide) (by simp)⟩

theorem positionUpdate_nd (st : RegistryState) (nd : Option Nat)
    (inv : Nat) (data : List Nat) :
    (positionUpdate st nd inv data).newlyDiscovered = nd := by
  unfold positionUpdate
  split <;> rfl

theorem parse_nodup (cbs : List Callback) (st : RegistryState) (p : List Nat)
    (h : st.discovered.Nodup) :
    (parse_status_packet cbs st p).state.discovered.Nodup := by
  unfold parse_status_packet
  split
  · exact h
  split
  · exact h
  split
  · exact h
  dsimp only
  split
  · rw [positionUpdate_discovered]; exact h
  · rename_i hna
    split
    · simpa [List.nodup_append] using ⟨h, hna⟩
    · rw [positionUpdate_discovered]
      simpa [List.nodup_append] using ⟨h, hna⟩

theorem applyPackets_nodup (cbs : List Callback) :
    ∀ (ps : List (List Nat)) (st : RegistryState), st.discovered.Nodup →
    (applyPackets cbs st ps).1.discovered.Nodup := by
  intro ps
  induction ps with
  | nil => intro st h; exact h
  | cons p rest ih =>
    intro st h
    simp only [applyPackets]
    split
    · exact parse_nodup cbs st p h
    · exact ih _ (parse_nodup cbs st p h)

/-- Case analysis on the discovery outcome of one parse: either no first
sighting was recorded, or the recorded address was new and is now in the
discovered list. -/
theorem parse_cases (cbs : List Callback) (st : RegistryState) (p : List Nat) :
    (parse_status_packet cbs st p).newlyDiscovered = none ∨
    (∃ b, (parse_status_packet cbs st p).newlyDiscovered = some b ∧
      b ∉ st.discovered ∧ b ∈ (parse_status_packet cbs st p).state.discovered) := by
  unfold parse_status_packet
  split
  · left; rfl
  split
  · left; rfl
  split
  · left; rfl
  dsimp only
  split
  · left; rw [positionUpdate_nd]
  · rename_i hna
    split
    · right; exact ⟨_, rfl, hna, by simp⟩
    · right
      refine ⟨_, ?_, hna, ?_⟩
      · rw [positionUpdate_nd]
      · rw [positionUpdate_discovered]; simp

theorem applyPackets_discovery_once (cbs : List Callback) (a : Nat) :
    ∀ (ps : List (List Nat)) (st : RegistryState),
      (applyPackets cbs st ps).2.1.count a ≤ 1 ∧
      (a ∈ st.discovered → a ∉ (applyPackets cbs st ps).2.1) ∧
      (a ∈ (applyPackets cbs st ps).2.1 → a ∈ (applyPackets cbs st ps).1.discovered) := by
  intro ps
  induction ps with
  | nil =>
    intro st
    refine ⟨by simp [applyPackets], by simp [applyPackets], by simp [applyPackets]⟩
  | cons p rest ih =>
    intro st
    simp only [applyPackets]
    rcases parse_cases cbs st p with hnd | ⟨b, hnd, hbn, hbm⟩
    · cases hesc : (parse_status_packet cbs st p).escaped with
      | some e => simp [hnd]
      | none =>
        simp only [hnd, Option.toList_none, List.nil_append]
        obtain ⟨c1, c2, c3⟩ := ih (parse_status_packet cbs st p).state
        exact ⟨c1, fun ha => c2 (parse_discovered_mono cbs st p a ha), c3⟩
    · cases hesc : (parse_status_packet cbs st p).escaped with
      | some e =>
        simp only [hnd, Option.toList_some]
        refine ⟨by simp [List.count_singleton']; split <;> omega, ?_, ?_⟩
        · intro ha hmem
          rw [List.mem_singleton] at hmem
          exact hbn (hmem ▸ ha)
        · intro hmem
          rw [List.mem_singleton] at hmem
          exact hmem ▸ hbm
      | none =>
        simp only [hnd, Option.toList_some, List.singleton_append]
        obtain ⟨c1, c2, c3⟩ := ih (parse_status_packet cbs st p).state
        by_cases hab : a = b
        · subst hab
          have hnotin : a ∉ (applyPackets cbs (parse_status_packet cbs st p).state rest).2.1 :=
            c2 hbm
          refine ⟨?_, ?_, ?_⟩
          · simp [List.count_cons, List.count_eq_zero.mpr hnotin]
          · intro ha; exact absurd ha hbn
          · intro _
            exact applyPackets_discovered_mono cbs rest _ a hbm
        · refine ⟨?_, ?_, ?_⟩
          · simpa [List.count_cons, hab] using c1
          · intro ha
            simp only [List.mem_cons, not_or]
            exact ⟨hab, c2 (parse_discovered_mono cbs st p a ha)⟩
          · intro hmem
            rcases List.mem_cons.mp hmem with rfl | hmem'
            · exact absurd rfl hab
            · exact c3 hmem'

theorem parse_status_overwrite (cbs : List Callback) (st : RegistryState) (a x : Nat)
    (hbgn : ∀ cb ∈ cbs, ∀ m e, cb m = some e → discoveryCaught e = true) :
    dictGet (parse_status_packet cbs st (generate_command a 0x01 0x01 x)).state.positions a
      = some (correct_position (x : Int)) := by
  have hrun := runCallbacks_benign cbs a hbgn
  unfold parse_status_packet positionUpdate
  by_cases hmem : a ∈ st.discovered <;> simp [hrun, hmem]

theorem parse_nd_of_mem (cbs : List Callback) (st : RegistryState) (a f da x : Nat)
    (hmem : a ∈ st.discovered) :
    (parse_status_packet cbs st (generate_command a f da x)).newlyDiscovered = none := by
  unfold parse_status_packet
  simp [hmem, positionUpdate_nd]

theorem parse_first_sighting (cbs : List Callback) (st : RegistryState) (a f da x : Nat)
    (hna : a ∉ st.discovered)
    (hbgn : ∀ cb ∈ cbs, ∀ m e, cb m = some e → discoveryCaught e = true) :
    (parse_status_packet cbs st (generate_command a f da x)).newlyDiscovered = some a := by
  have hrun := runCallbacks_benign cbs a hbgn
  unfold parse_status_packet
  simp [hrun, hna, positionUpdate_nd]

/-- C8: registry invariants over any run.  Across any sequence of frames,
the discovery-callback loop fires at most once per device address (the
middle component of `applyPackets` lists, in order, the address whose
first sighting ran the callbacks in each packet); the discovered list never
acquires duplicates; a valid frame records a first sighting whatever its
function code, and only on first sighting; and every valid status frame
(function code 0x01, data address 0x01) overwrites the stored position with
the corrected payload — including repeats and regardless of whether the
address was already discovered. -/
theorem C8_registry_invariants (cbs : List Callback) (ps : List (List Nat))
    (st : RegistryState) (adr a f da x : Nat)
    (hnodup : st.discovered.Nodup)
    (hbgn : ∀ cb ∈ cbs, ∀ m e, cb m = some e → discoveryCaught e = true) :
    (applyPackets cbs st ps).1.discovered.Nodup ∧
    (applyPackets cbs st ps).2.1.count adr ≤ 1 ∧
    ((parse_status_packet cbs st (generate_command a f da x)).newlyDiscovered =
      if a ∈ st.discovered then none else some a) ∧
    dictGet (parse_status_packet cbs st (generate_command a 0x01 0x01 x)).state.positions a
      = some (correct_position (x : Int)) := by
  refine ⟨applyPackets_nodup cbs ps st hnodup,
          (applyPackets_discovery_once cbs adr ps st).1, ?_, ?_⟩
  · by_cases hmem : a ∈ st.discovered
    · rw [if_pos hmem]
      exact parse_nd_of_mem cbs st a f da x hmem
    · rw [if_neg hmem]
      exact parse_first_sighting cbs st a f da x hmem hbgn
  · exact parse_status_overwrite cbs st a x hbgn

theorem C8_registry_invariants_witness :
    emptyState.discovered.Nodup ∧
    ((applyPackets [] emptyState
        [generate_command 2 0x01 0x01 50, generate_command 2 0x01 0x01 50]).1.discovered.Nodup ∧
     (applyPackets [] emptyState
        [generate_command 2 0x01 0x01 50, generate_command 2 0x01 0x01 50]).2.1.count 2 ≤ 1 ∧
     ((parse_status_packet [] emptyState (generate_command 2 0x03 0x04 50)).newlyDiscovered =
       if 2 ∈ emptyState.discovered then none else some 2) ∧
     dictGet (parse_status_packet [] emptyState
        (generate_command 2 0x01 0x01 50)).state.positions 2
       = some (correct_position ((50 : Nat) : Int))) :=
  ⟨by decide,
   C8_registry_invariants [] [generate_command 2 0x01 0x01 50, generate_command 2 0x01 0x01 50]
     emptyState 2 2 0x03 0x04 50 (by decide) (by simp)⟩

/-- Outcome of `self._reader.read(1024)` in one listen-loop iteration:
either a byte string (empty meaning the peer closed the connection) or an
I/O error raised by the read. -/
inductive ReadOutcome
  | bytes (data : List Nat)
  | ioError
deriving DecidableEq

/-- The observable actions of one iteration of `_async_listen_loop`, in
program order. -/
inductive LoopAction
  | connectAttempt
  | sleep5
  | readAttempt
  | disconnectAction
  | parseAction (data : List Nat)
deriving DecidableEq

/-- The read/parse part of a listen-loop iteration (lines 169-187), entered
once a connection is up: an empty read disconnects and continues the loop
at once; data is parsed; an I/O error disconnects and sleeps 5 seconds.
`acts0` carries the actions of the connect phase of the same iteration. -/
def readPhase (acts0 : List LoopAction) (r : ReadOutcome) : List LoopAction × Bool :=
  match r with
  | .bytes [] => (acts0 ++ [.readAttempt, .disconnectAction], false)
  | .bytes d => (acts0 ++ [.readAttempt, .parseAction d], true)
  | .ioError => (acts0 ++ [.readAttempt, .disconnectAction, .sleep5], false)

/-- One iteration of the `while True` body of `_async_listen_loop`
(coordinator.py lines 160-187): when disconnected, attempt a connect and
on failure sleep 5 seconds and retry; on success (or when already
connected) fall through to the read in the same iteration.  Returns the
iteration's actions in order and whether the coordinator is connected
afterwards. -/
def listenIteration (connected connectOk : Bool) (r : ReadOutcome) :
    List LoopAction × Bool :=
  if connected then readPhase [] r
  else if connectOk then readPhase [.connectAttempt] r
  else ([.connectAttempt, .sleep5], false)

/-- C5: an empty read (peer closed) makes the iteration disconnect without
sleeping and leaves the loop disconnected, so the very next iteration's
first action is a connect attempt — whereas a failed connect attempt is
followed by the 5-second sleep; the two cases are never conflated (the
empty-read iteration never sleeps, the failed-connect iteration always
does). -/
theorem C5_empty_read_reconnects_without_sleep
    (connectOk nextConnectOk : Bool) (r : ReadOutcome) :
    LoopAction.sleep5 ∉ (listenIteration true connectOk (.bytes [])).1 ∧
    LoopAction.disconnectAction ∈ (listenIteration true connectOk (.bytes [])).1 ∧
    (listenIteration true connectOk (.bytes [])).2 = false ∧
    (listenIteration false nextConnectOk r).1.headD .sleep5 = .connectAttempt ∧
    listenIteration false false r = ([.connectAttempt, .sleep5], false) := by
  cases r with
  | bytes d =>
    cases d <;> cases nextConnectOk <;>
      simp [listenIteration, readPhase]
  | ioError =>
    cases nextConnectOk <;> simp [listenIteration, readPhase]

/-- Exceptions named in the `except (OSError, ConnectionError)` clause of
`_send_raw_command`; the write path can raise no other transport error
kind in the model. -/
inductive TransportExc
  | osError
  | connectionError
deriving DecidableEq

/-- Whether the `except` clause of `_send_raw_command` catches the
exception. -/
def sendCaught : TransportExc → Bool
  | .osError => true
  | .connectionError => true

/-- Observable outcome of one `_send_raw_command` call. -/
structure SendOutcome where
  success : Bool
  connectedAfter : Bool
  connectAttempts : Nat
  writeAttempts : Nat
  escaped : Option TransportExc
deriving DecidableEq

/-- `_send_raw_command` (coordinator.py lines 276-296): under the command
lock, if there is no writer make exactly one inline connect attempt and
return failure if it fails; otherwise write once; a write raising
OSError/ConnectionError is caught, disconnects and returns failure; a
successful write returns success.  There is no retry of either step. -/
def send_raw_command (connected connectOk : Bool)
    (writeExc : Option TransportExc) : SendOutcome :=
  if ¬connected ∧ ¬connectOk then ⟨false, false, 1, 0, none⟩
  else
    let ca := if connected then 0 else 1
    match writeExc with
    | none => ⟨true, true, ca, 1, none⟩
    | some e =>
      if sendCaught e then ⟨false, false, ca, 1, none⟩
      else ⟨false, true, ca, 1, some e⟩

/-- `send_command` (lines 271-274): encode the command with
`generate_command`, then send it via `_send_raw_command`. -/
def send_command (a f da x : Nat) (connected connectOk : Bool)
    (writeExc : Option TransportExc) : SendOutcome × List Nat :=
  (send_raw_command connected connectOk writeExc, generate_command a f da x)

/-- C6: for every `send_command` call: when disconnected exactly one inline
connect attempt is made and its failure yields the failure result with no
write attempted; when connected no connect attempt is made; a write failure
disconnects and yields the failure result; the result is always a boolean
with no transport exception escaping; and the write is never retried (at
most one write attempt). -/
theorem C6_send_command_contract (a f da x : Nat) (connected connectOk : Bool)
    (writeExc : Option TransportExc) :
    (connected = false → (send_command a f da x connected connectOk writeExc).1.connectAttempts = 1) ∧
    (connected = true → (send_command a f da x connected connectOk writeExc).1.connectAttempts = 0) ∧
    (connected = false → connectOk = false →
      (send_command a f da x connected connectOk writeExc).1 = ⟨false, false, 1, 0, none⟩) ∧
    (writeExc.isSome = true →
      (send_command a f da x connected connectOk writeExc).1.success = false ∧
      (send_command a f da x connected connectOk writeExc).1.connectedAfter = false) ∧
    (send_command a f da x connected connectOk writeExc).1.escaped = none ∧
    (send_command a f da x connected connectOk writeExc).1.writeAttempts ≤ 1 := by
  rcases writeExc with _ | e
  · cases connected <;> cases connectOk <;> simp [send_command, send_raw_command]
  · cases e <;> cases connected <;> cases connectOk <;>
      simp [send_command, send_raw_command, sendCaught]

theorem C6_send_command_contract_witness :
    ((false = false → (send_command 0x06FE 0x03 0x04 0x64 false false none).1.connectAttempts = 1) ∧
     (false = true → (send_command 0x06FE 0x03 0x04 0x64 false false none).1.connectAttempts = 0) ∧
     (false = false → false = false →
       (send_command 0x06FE 0x03 0x04 0x64 false false none).1 = ⟨false, false, 1, 0, none⟩) ∧
     ((none : Option TransportExc).isSome = true →
       (send_command 0x06FE 0x03 0x04 0x64 false false none).1.success = false ∧
       (send_command 0x06FE 0x03 0x04 0x64 false false none).1.connectedAfter = false) ∧
     (send_command 0x06FE 0x03 0x04 0x64 false false none).1.escaped = none ∧
     (send_command 0x06FE 0x03 0x04 0x64 false false none).1.writeAttempts ≤ 1) :=
  C6_send_command_contract 0x06FE 0x03 0x04 0x64 false false none

/-- Python `x or default` on an `Optional[int]` value: `None` and `0` are
falsy and give the default (`position = ...get_device_position(address) or 0`
in `scan_for_devices`). -/
def pyOrInt (x : Option Int) (d : Int) : Int :=
  match x with
  | none => d
  | some v => if v = 0 then d else v

/-- One hexadecimal digit of the Python format `{address:04X}`. -/
def hexDigit : Nat → Char
  | 0 => '0' | 1 => '1' | 2 => '2' | 3 => '3' | 4 => '4'
  | 5 => '5' | 6 => '6' | 7 => '7' | 8 => '8' | 9 => '9'
  | 10 => 'A' | 11 => 'B' | 12 => 'C' | 13 => 'D' | 14 => 'E' | _ => 'F'

/-- The Python format `{address:04X}` for a 16-bit address. -/
def hex4 (n : Nat) : String :=
  String.mk [hexDigit (n / 4096 % 16), hexDigit (n / 256 % 16),
             hexDigit (n / 16 % 16), hexDigit (n % 16)]

/-- The static address-to-name table of `get_device_name`
(device_discovery.py lines 42-53). -/
def device_names : List (Nat × String) :=
  [(0x06FE, "主卧室_纱帘"), (0x05FE, "主卧室_布帘"), (0x04FE, "客厅_纱帘"),
   (0x07FE, "儿童房_布帘"), (0x08FE, "儿童房_纱帘"), (0x0AFE, "书房_纱帘"),
   (0x09FE, "书房_布帘"), (0x02FE, "老人房_纱帘"), (0x01FE, "老人房_布帘"),
   (0x03FE, "客厅_布帘")]

/-- `get_device_name` (device_discovery.py lines 35-55): mapped name when
mapping is enabled and known, otherwise the generated fallback embedding
the hexadecimal address. -/
def get_device_name (address : Nat) (use_mapping : Bool) : String :=
  if use_mapping = false then "窗帘 0x" ++ hex4 address
  else ((device_names.find? (fun p => p.1 == address)).map (·.2)).getD
    ("窗帘 0x" ++ hex4 address)

/-- `get_device_position` (coordinator.py lines 309-311):
`self._device_positions.get(device_address)`. -/
def get_device_position (positions : List (Nat × Int)) (address : Nat) : Option Int :=
  dictGet positions address

/-- The device snapshot produced by `scan_for_devices`
(device_discovery.py lines 12-17): a `DiscoveredDevice` named tuple. -/
structure DiscoveredDevice where
  address : Nat
  name : String
  last_position : Int
  last_seen : Int
deriving DecidableEq

/-- The `DiscoveredDevice` built by the live discovery callback
`on_device_discovered` inside `scan_for_devices` (device_discovery.py
lines 66-77); `now` stands for the event-loop timestamp. -/
def on_device_discovered (positions : List (Nat × Int)) (use_mapping : Bool)
    (now : Int) (address : Nat) : DiscoveredDevice :=
  { address := address
    name := get_device_name address use_mapping
    last_position := pyOrInt (get_device_position positions address) 0
    last_seen := now }

/-- The `DiscoveredDevice` built by the end-of-scan back-fill loop of
`scan_for_devices` (device_discovery.py lines 87-96), for addresses already
in the coordinator's discovered set but not yet captured. -/
def backfill_device (positions : List (Nat × Int)) (use_mapping : Bool)
    (now : Int) (address : Nat) : DiscoveredDevice :=
  { address := address
    name := get_device_name address use_mapping
    last_position := pyOrInt (get_device_position positions address) 0
    last_seen := now }

/-- C10: on both capture paths of a scan (the live discovery callback and
the end-of-scan back-fill), a device with no stored position is reported
with `last_position` 0, not an unknown marker; such a device's snapshot is
byte-for-byte identical to that of a device whose stored position is 0,
so a never-reported position is indistinguishable from position 0 at the
scan interface. -/
theorem C10_unknown_position_reported_as_zero
    (positions positions0 : List (Nat × Int)) (um : Bool) (now : Int) (address : Nat)
    (hnone : get_device_position positions address = none)
    (hzero : get_device_position positions0 address = some 0) :
    (on_device_discovered positions um now address).last_position = 0 ∧
    (backfill_device positions um now address).last_position = 0 ∧
    on_device_discovered positions um now address =
      on_device_discovered positions0 um now address ∧
    backfill_device positions um now address =
      backfill_device positions0 um now address := by
  refine ⟨?_, ?_, ?_, ?_⟩ <;>
    simp [on_device_discovered, backfill_device, pyOrInt, hnone, hzero,
      DiscoveredDevice.mk.injEq]

theorem C10_unknown_position_reported_as_zero_witness :
    get_device_position [] 5 = none ∧
    get_device_position [(5, 0)] 5 = some 0 ∧
    ((on_device_discovered [] true 0 5).last_position = 0 ∧
     (backfill_device [] true 0 5).last_position = 0 ∧
     on_device_discovered [] true 0 5 = on_device_discovered [(5, 0)] true 0 5 ∧
     backfill_device [] true 0 5 = backfill_device [(5, 0)] true 0 5) :=
  ⟨by decide, by decide,
   C10_unknown_position_reported_as_zero [] [(5, 0)] true 0 5 (by decide) (by decide)⟩
